import Mathlib

/-!
Verification of the foodgram backend core logic (shallow embedding).

The definitions below are translated from the Django backend sources:
`backend/api/views.py`, `backend/api/serializers.py`, `backend/api/utils.py`
and `backend/recipes/validators.py`, over a relational state modelled as
lists of rows.  Machine-level identifiers are `Nat`, strings are `String` /
`List Char`.
-/

namespace Foodgram

/-- A row of the `Ingredient` table (`recipes/models.py`): primary key,
name and measurement unit.  The table carries a uniqueness constraint on
`(name, measurement_unit)`. -/
structure Ingredient where
  id : Nat
  name : String
  measurement_unit : String
deriving DecidableEq, Repr

/-- A row of the `RecipeIngredient` join table (`recipes/models.py`):
recipe id, ingredient id and amount.  Unique on `(recipe, ingredient)`. -/
structure RecipeIngredient where
  recipe : Nat
  ingredient : Nat
  amount : Nat
deriving DecidableEq, Repr

/-- A row of the `ShoppingCart` table (`recipes/models.py`): user id and
recipe id.  Unique on `(user, recipe)`. -/
structure CartEntry where
  user : Nat
  recipe : Nat
deriving DecidableEq, Repr

/-- The slice of the relational state needed by the shopping-list
aggregation query. -/
structure DB where
  ingredients : List Ingredient
  recipeIngredients : List RecipeIngredient
  shoppingCarts : List CartEntry
deriving Repr

/-! ### C1: shopping-list aggregation

`RecipeViewSet.download_shopping_cart` (`api/views.py`) runs

  Ingredient.objects
    .filter(recipeingredients__recipe__shoppingcarts__user=user)
    .values("name", measurement=F("measurement_unit"))
    .annotate(amount=Sum("recipeingredients__amount"))

i.e. the SQL join Ingredient ⋈ RecipeIngredient ⋈ ShoppingCart restricted
to the given user, grouped by `(name, measurement_unit)` with
`SUM(amount)` per group.  We embed the join row set and the grouped
aggregation directly. -/

/-- The join rows contributed by one ingredient: one row per
(recipe-ingredient, cart-entry) pair with `ri.ingredient = i.id`,
`c.recipe = ri.recipe` and `c.user = u`. -/
def joinGroup (db : DB) (u : Nat) (i : Ingredient) :
    List (Ingredient × RecipeIngredient × CartEntry) :=
  (db.recipeIngredients.filter fun ri => ri.ingredient = i.id).flatMap fun ri =>
    (db.shoppingCarts.filter fun c => c.user = u ∧ c.recipe = ri.recipe).map fun c =>
      (i, ri, c)

/-- The rows of the SQL join produced by the ORM filter: one row per
(ingredient, recipe-ingredient, cart-entry) triple with
`ri.ingredient = i.id`, `c.recipe = ri.recipe` and `c.user = u`. -/
def cartJoinRows (db : DB) (u : Nat) : List (Ingredient × RecipeIngredient × CartEntry) :=
  db.ingredients.flatMap (joinGroup db u)

/-- Group key of a join row: the `values("name", measurement=...)` pair. -/
def rowKey (r : Ingredient × RecipeIngredient × CartEntry) : String × String :=
  (r.1.name, r.1.measurement_unit)

/-- The distinct group keys occurring in the join (SQL `GROUP BY`). -/
def aggKeys (db : DB) (u : Nat) : List (String × String) :=
  ((cartJoinRows db u).map rowKey).dedup

/-- SQL SUM(amount) over the join rows of one group. -/
def groupTotal (db : DB) (u : Nat) (k : String × String) : Nat :=
  (((cartJoinRows db u).filter fun r => rowKey r = k).map fun r => r.2.1.amount).sum

/-- The aggregation result of `download_shopping_cart`: one
`(name, measurement_unit, total)` line per group key. -/
def download_shopping_cart (db : DB) (u : Nat) : List (String × String × Nat) :=
  (aggKeys db u).map fun k => (k.1, k.2, groupTotal db u k)

/-- Whether some entry of user `u`'s shopping cart references recipe
`rid`. -/
def cartHit (db : DB) (u : Nat) (rid : Nat) : Bool :=
  db.shoppingCarts.any fun c => c.user = u ∧ c.recipe = rid

/-- The sum of ingredient `i`'s amounts across all recipes in user `u`'s
cart: the reference total the specification describes. -/
def ingredientCartTotal (db : DB) (u : Nat) (i : Ingredient) : Nat :=
  ((db.recipeIngredients.filter fun ri =>
      ri.ingredient = i.id ∧ cartHit db u ri.recipe).map fun ri => ri.amount).sum

/-! ### C2: ingredient-list validation -/

/-- Outcomes of RecipeCreateUpdateSerializer.validate_items
(api/serializers.py).  Each failure constructor records the id data
interpolated into the raised ValidationError message. -/
inductive ItemsOutcome where
  | ok
  | emptyItems
  | unknown (ids : Finset Nat)
  | duplicate (ids : Finset Nat)
deriving DecidableEq

/-- Python set(items) - set(existing_items): submitted ids absent from storage. -/
def missingOf (items existing : List Nat) : Finset Nat :=
  items.toFinset \ existing.toFinset

/-- Python set(item for item in items if items.count(item) > 1). -/
def nonUniqueOf (items : List Nat) : Finset Nat :=
  (items.filter fun i => 1 < items.count i).toFinset

/-- RecipeCreateUpdateSerializer.validate_items (api/serializers.py): the
empty check, then the existence check, then the uniqueness check, each
raising a ValidationError on failure.  `existing` is the list of ids
present in the Ingredient storage. -/
def validate_items (items existing : List Nat) : ItemsOutcome :=
  if items = [] then .emptyItems
  else if missingOf items existing ≠ ∅ then .unknown (missingOf items existing)
  else if nonUniqueOf items ≠ ∅ then .duplicate (nonUniqueOf items)
  else .ok

/-- True exactly on the duplicate-ids failure. -/
def reportsDuplicate : ItemsOutcome → Bool
  | .duplicate _ => true
  | _ => false

/-! ### C3: username character validation -/

/-- The character class of USERNAME_PATTERN = [^\w.@+-]+
(recipes/validators.py), complemented: Python \w (modelled on the ASCII
range as alphanumeric or underscore) plus the four explicit characters. -/
def isAllowedUsernameChar (c : Char) : Bool :=
  c.isAlphanum || c = '_' || c = '.' || c = '@' || c = '+' || c = '-'

/-- Accumulator pass implementing re.findall(USERNAME_PATTERN, username):
collects the maximal runs of disallowed characters, left to right; `acc`
holds the current run, reversed. -/
def invalidRunsAux : List Char → List Char → List (List Char)
  | [], acc => if acc = [] then [] else [acc.reverse]
  | c :: rest, acc =>
    if isAllowedUsernameChar c then
      (if acc = [] then [] else [acc.reverse]) ++ invalidRunsAux rest []
    else invalidRunsAux rest (c :: acc)

/-- Python re.findall(USERNAME_PATTERN, username): the maximal runs of characters
outside the allowed set. -/
def invalidRuns (s : List Char) : List (List Char) := invalidRunsAux s []

/-- The function _validate_username_characters (recipes/validators.py): none when the
username passes, otherwise the set of matched runs interpolated into the
ValidationError message (set(invalid_chars)). -/
def validate_username_characters (s : List Char) : Option (Finset (List Char)) :=
  if invalidRuns s = [] then none else some (invalidRuns s).toFinset

/-! ### C4, C8, C10: relation toggles and subscription -/

/-- HTTP method of the toggle endpoints. -/
inductive Method where
  | post
  | delete
deriving DecidableEq

/-- Outcome of RecipeViewSet.shoppingcart_favorite_method (api/views.py). -/
inductive ToggleOutcome where
  | created (recipeSummary : Nat)
  | alreadyInList
  | notInList
  | removed
deriving DecidableEq

/-- HTTP status attached to each outcome by the view code: a raised
ValidationError surfaces as 400, the explicit error Response is built
with HTTP_400_BAD_REQUEST. -/
def toggleStatus : ToggleOutcome → Nat
  | .created _ => 201
  | .alreadyInList => 400
  | .notInList => 400
  | .removed => 204

/-- RecipeViewSet.shoppingcart_favorite_method (api/views.py), the shared
implementation of the favorite and shopping_cart endpoints.  State: the
(user, recipe) rows of the relation.  POST uses get_or_create and raises
when the row already existed; DELETE checks existence and deletes the
matching rows. -/
def shoppingcart_favorite_method (m : Method) (user recipe : Nat)
    (pairs : List (Nat × Nat)) : ToggleOutcome × List (Nat × Nat) :=
  match m with
  | .post =>
    if (user, recipe) ∈ pairs then (.alreadyInList, pairs)
    else (.created recipe, pairs ++ [(user, recipe)])
  | .delete =>
    if (user, recipe) ∈ pairs then
      (.removed, pairs.filter fun p => p ≠ (user, recipe))
    else (.notInList, pairs)

/-- Outcome of UserViewSet.subscribe (api/views.py). -/
inductive SubscribeOutcome where
  | selfSubscription
  | alreadySubscribed
  | subscribed (author : Nat)
  | notSubscribed
  | unsubscribed
deriving DecidableEq

/-- HTTP status attached to each subscribe outcome by the view code. -/
def subscribeStatus : SubscribeOutcome → Nat
  | .selfSubscription => 400
  | .alreadySubscribed => 400
  | .subscribed _ => 201
  | .notSubscribed => 400
  | .unsubscribed => 204

/-- UserViewSet.subscribe (api/views.py): the user == author
ValidationError is raised before the method branch; POST uses
get_or_create; DELETE checks existence before deleting.  State: the
(user, author) rows of Subscriptions. -/
def subscribe (m : Method) (user author : Nat)
    (subs : List (Nat × Nat)) : SubscribeOutcome × List (Nat × Nat) :=
  if user = author then (.selfSubscription, subs)
  else
    match m with
    | .post =>
      if (user, author) ∈ subs then (.alreadySubscribed, subs)
      else (.subscribed author, subs ++ [(user, author)])
    | .delete =>
      if (user, author) ∈ subs then
        (.unsubscribed, subs.filter fun p => p ≠ (user, author))
      else (.notSubscribed, subs)

/-! ### C5, C6: recipe ingredient replacement and atomicity -/

/-- RecipeCreateUpdateSerializer.set_ingredients (api/serializers.py):
bulk_create of one RecipeIngredient row per validated (ingredient id,
amount) pair, appended to the stored rows. -/
def set_ingredients (rid : Nat) (ings : List (Nat × Nat))
    (rows : List RecipeIngredient) : List RecipeIngredient :=
  rows ++ ings.map fun p => ⟨rid, p.1, p.2⟩

/-- instance.ingredients.clear() in RecipeCreateUpdateSerializer.update:
deletes every RecipeIngredient row of the recipe. -/
def clearIngredients (rid : Nat) (rows : List RecipeIngredient) :
    List RecipeIngredient :=
  rows.filter fun ri => ri.recipe ≠ rid

/-- The RecipeIngredient effect of RecipeCreateUpdateSerializer.update
(api/serializers.py): clear() followed by set_ingredients. -/
def updateIngredients (rid : Nat) (ings : List (Nat × Nat))
    (rows : List RecipeIngredient) : List RecipeIngredient :=
  set_ingredients rid ings (clearIngredients rid rows)

/-- Persistent state touched by recipe create/update: the recipe ids and
the RecipeIngredient rows. -/
structure RecState where
  recipes : List Nat
  rows : List RecipeIngredient
deriving DecidableEq

/-- Modelled from the spec: the transaction demarcation of §5 ("each
mutating operation should execute inside one transaction so that partial
writes are never visible") — the transaction configuration lives in the
project settings, which are not among the app sources.  A failing body
rolls back, leaving the pre-state as the observable state; a successful
body commits. -/
def runAtomic (body : RecState → Option RecState) (s : RecState) :
    Option RecState × RecState :=
  match body s with
  | some s1 => (some s1, s1)
  | none => (none, s)

/-- Body of RecipeCreateUpdateSerializer.create (api/serializers.py):
Recipe.objects.create followed by set_ingredients; `failCreate` /
`failBulk` inject a storage failure at the corresponding write. -/
def createBody (failCreate failBulk : Bool) (rid : Nat)
    (ings : List (Nat × Nat)) (s : RecState) : Option RecState :=
  if failCreate then none
  else if failBulk then none
  else some ⟨s.recipes ++ [rid], set_ingredients rid ings s.rows⟩

/-- RecipeCreateUpdateSerializer.create under the spec-modelled
transaction. -/
def createRecipe (failCreate failBulk : Bool) (rid : Nat)
    (ings : List (Nat × Nat)) (s : RecState) : Option RecState × RecState :=
  runAtomic (createBody failCreate failBulk rid ings) s

/-- Body of RecipeCreateUpdateSerializer.update (api/serializers.py):
save, ingredients.clear(), set_ingredients; `failClear` / `failBulk`
inject a storage failure at the corresponding write. -/
def updateBody (failClear failBulk : Bool) (rid : Nat)
    (ings : List (Nat × Nat)) (s : RecState) : Option RecState :=
  if failClear then none
  else if failBulk then none
  else some ⟨s.recipes, updateIngredients rid ings s.rows⟩

/-- RecipeCreateUpdateSerializer.update under the spec-modelled
transaction. -/
def updateRecipe (failClear failBulk : Bool) (rid : Nat)
    (ings : List (Nat × Nat)) (s : RecState) : Option RecState × RecState :=
  runAtomic (updateBody failClear failBulk rid ings) s

/-! ### C7: computed flags for the viewing user -/

/-- The requesting user object as the serializers see it: its id and its
is_authenticated flag.  The whole request may be absent (none). -/
structure Requester where
  id : Nat
  is_authenticated : Bool
deriving DecidableEq

/-- RecipeRetrieveSerializer.get_is_favorited (api/serializers.py): the
flag value together with whether a storage query was issued.
`favorites` lists the (user, recipe) rows of Favorite. -/
def get_is_favorited (user : Option Requester) (recipeId : Nat)
    (favorites : List (Nat × Nat)) : Bool × Bool :=
  match user with
  | none => (false, false)
  | some u =>
    if u.is_authenticated then
      (favorites.any fun p => p.1 = u.id ∧ p.2 = recipeId, true)
    else (false, false)

/-- RecipeRetrieveSerializer.get_is_in_shopping_cart (api/serializers.py):
the flag value together with whether a storage query was issued. -/
def get_is_in_shopping_cart (user : Option Requester) (recipeId : Nat)
    (carts : List (Nat × Nat)) : Bool × Bool :=
  match user with
  | none => (false, false)
  | some u =>
    if u.is_authenticated then
      (carts.any fun p => p.1 = u.id ∧ p.2 = recipeId, true)
    else (false, false)

/-! ### C9: recipes_limit fallback and truncation -/

/-- The effectively unbounded default of
SubscriptionDetailSerializer.get_recipes: default_limit = 10**10. -/
def defaultRecipesLimit : Int := 10 ^ 10

/-- Python int(request.GET.get('recipes_limit', default_limit)) with the
ValueError / AttributeError fallback (api/serializers.py): `parsed` is
the result of the Python int() call on the query parameter (none when the
parameter is missing, the request is absent, or the string is not
parseable as an integer). -/
def recipesLimitOf (parsed : Option Int) : Int :=
  parsed.getD defaultRecipesLimit

/-- Django QuerySet slicing qs[:k]: for nonnegative k the first k
elements; for negative k the QuerySet raises
ValueError("Negative indexing is not supported."), modelled as none. -/
def querysetSlice (l : List Nat) (k : Int) : Option (List Nat) :=
  if 0 ≤ k then some (l.take k.toNat) else none

/-- SubscriptionDetailSerializer.get_recipes (api/serializers.py):
author_recipes = subscribed_author.recipes.all()[:limit], a QuerySet
slice evaluated outside the try block, so a raise escapes (none = the
request fails with the uncaught exception).  `recipes` lists the
author's recipe ids. -/
def get_recipes (parsed : Option Int) (recipes : List Nat) : Option (List Nat) :=
  querysetSlice recipes (recipesLimitOf parsed)

/-! ## Theorems -/

/-- C5: updating a recipe's ingredient list deletes all of its existing
RecipeIngredient rows and bulk-inserts the validated set: afterwards the
rows of that recipe are exactly the new set (full replacement, no
incremental diff) and the rows of every other recipe are untouched. -/
theorem updateIngredients_replaces_rows (rid : Nat) (ings : List (Nat × Nat))
    (rows : List RecipeIngredient) :
    ((updateIngredients rid ings rows).filter fun ri => ri.recipe = rid)
        = (ings.map fun p => RecipeIngredient.mk rid p.1 p.2) ∧
    ((updateIngredients rid ings rows).filter fun ri => ri.recipe ≠ rid)
        = rows.filter fun ri => ri.recipe ≠ rid := by
  unfold updateIngredients set_ingredients clearIngredients
  constructor
  · rw [List.filter_append]
    have h1 : ((rows.filter fun ri => ri.recipe ≠ rid).filter
        fun ri => ri.recipe = rid) = [] := by
      apply List.filter_eq_nil_iff.mpr
      intro a ha
      have := (List.mem_filter.mp ha).2
      simp_all
    have h2 : ((ings.map fun p => RecipeIngredient.mk rid p.1 p.2).filter
        fun ri => ri.recipe = rid) = ings.map fun p => RecipeIngredient.mk rid p.1 p.2 := by
      apply List.filter_eq_self.mpr
      intro a ha
      obtain ⟨p, _, rfl⟩ := List.mem_map.mp ha
      simp
    rw [h1, h2, List.nil_append]
  · rw [List.filter_append]
    have h1 : ((ings.map fun p => RecipeIngredient.mk rid p.1 p.2).filter
        fun ri => ri.recipe ≠ rid) = [] := by
      apply List.filter_eq_nil_iff.mpr
      intro a ha
      obtain ⟨p, _, rfl⟩ := List.mem_map.mp ha
      simp
    have h2 : ((rows.filter fun ri => ri.recipe ≠ rid).filter
        fun ri => ri.recipe ≠ rid) = rows.filter fun ri => ri.recipe ≠ rid := by
      apply List.filter_eq_self.mpr
      intro a ha
      exact (List.mem_filter.mp ha).2
    rw [h1, h2, List.append_nil]

/-- C6: recipe create and update are atomic under the spec-modelled
transaction: every execution either persists the recipe together with its
complete ingredient set, or leaves the observable state exactly as it
was — a state with the recipe row but missing or incomplete
RecipeIngredient rows is never an outcome. -/
theorem create_update_atomic (f1 f2 : Bool) (rid : Nat)
    (ings : List (Nat × Nat)) (s : RecState) :
    (createRecipe f1 f2 rid ings s
        = (some ⟨s.recipes ++ [rid], set_ingredients rid ings s.rows⟩,
           ⟨s.recipes ++ [rid], set_ingredients rid ings s.rows⟩)
      ∨ createRecipe f1 f2 rid ings s = (none, s)) ∧
    (updateRecipe f1 f2 rid ings s
        = (some ⟨s.recipes, updateIngredients rid ings s.rows⟩,
           ⟨s.recipes, updateIngredients rid ings s.rows⟩)
      ∨ updateRecipe f1 f2 rid ings s = (none, s)) := by
  cases f1 <;> cases f2 <;>
    simp [createRecipe, updateRecipe, runAtomic, createBody, updateBody]

/-- C7: rendering a recipe for an anonymous viewer (no request object, or
an unauthenticated user) yields is_favorited = false and
is_in_shopping_cart = false whatever Favorite or ShoppingCart rows exist,
and issues no storage query (second component false). -/
theorem anonymous_flags_false_no_query (recipeId uid : Nat)
    (favorites carts : List (Nat × Nat)) :
    get_is_favorited none recipeId favorites = (false, false) ∧
    get_is_in_shopping_cart none recipeId carts = (false, false) ∧
    get_is_favorited (some ⟨uid, false⟩) recipeId favorites = (false, false) ∧
    get_is_in_shopping_cart (some ⟨uid, false⟩) recipeId carts = (false, false) :=
  ⟨rfl, rfl, rfl, rfl⟩

/-- C8: subscribing to oneself fails with the self-subscription
ValidationError regardless of the prior subscription state, and even when
a self-pair is present the reported error is the self-subscription one,
never already-subscribed. -/
theorem subscribe_self_post_rejected (u : Nat) (subs : List (Nat × Nat)) :
    subscribe .post u u subs = (.selfSubscription, subs) ∧
    (subscribe .post u u ((u, u) :: subs)).1 = .selfSubscription ∧
    (subscribe .post u u ((u, u) :: subs)).1 ≠ .alreadySubscribed := by
  refine ⟨?_, ?_, ?_⟩ <;> simp [subscribe]

/-- C10: the user == author check also guards the DELETE branch:
unsubscribing from oneself fails with the self-subscription
ValidationError and never reaches the not-subscribed check. -/
theorem subscribe_self_delete_rejected (u : Nat) (subs : List (Nat × Nat)) :
    subscribe .delete u u subs = (.selfSubscription, subs) ∧
    (subscribe .delete u u subs).1 ≠ .notSubscribed := by
  constructor <;> simp [subscribe]

/-- C9 counterexample: -1 is a valid integer value of recipes_limit, yet
the author's recipes are not truncated to at most -1 elements: the
QuerySet slice raises the uncaught negative-indexing ValueError, so the
request fails and no recipe list is produced at all. -/
theorem get_recipes_negative_limit_cex :
    get_recipes (some (-1)) [10, 20] = none := by decide

/-- C9 (amended): an invalid or missing recipes_limit parameter does not
fail the request — the list is truncated to the effectively unbounded
default 10^10 — and a valid non-negative integer limit truncates to at
most that many recipes; a valid negative limit, however, fails the
request with the QuerySet's uncaught negative-indexing ValueError. -/
theorem get_recipes_fallback_and_truncation (recipes : List Nat) (k : Int) :
    get_recipes none recipes = some (recipes.take (10 ^ 10)) ∧
    (0 ≤ k → get_recipes (some k) recipes = some (recipes.take k.toNat) ∧
      ((recipes.take k.toNat).length : Int) ≤ k) ∧
    (k < 0 → get_recipes (some k) recipes = none) := by
  refine ⟨?_, ?_, ?_⟩
  · show querysetSlice recipes defaultRecipesLimit = some (recipes.take (10 ^ 10))
    rw [querysetSlice, if_pos (by norm_num [defaultRecipesLimit])]
    congr 2
  · intro hk
    refine ⟨by simp [get_recipes, recipesLimitOf, querysetSlice, if_pos hk], ?_⟩
    have h2 : min k.toNat recipes.length ≤ k.toNat := Nat.min_le_left _ _
    have h3 : (k.toNat : Int) = k := Int.toNat_of_nonneg hk
    rw [List.length_take]
    omega
  · intro hk
    simp [get_recipes, recipesLimitOf, querysetSlice, if_neg (Int.not_le.mpr hk)]

/-- C9 witness: concrete instances of the amended theorem — a missing
parameter keeps all three recipes, the valid limit 2 keeps at most two,
and the valid limit -1 fails the request. -/
theorem get_recipes_fallback_and_truncation_witness :
    get_recipes none [1, 2, 3] = some [1, 2, 3] ∧
    (get_recipes (some 2) [1, 2, 3] = some [1, 2] ∧
      (([1, 2] : List Nat).length : Int) ≤ 2) ∧
    get_recipes (some (-1)) [1, 2, 3] = none := by
  have h := get_recipes_fallback_and_truncation [1, 2, 3] 2
  have hneg := (get_recipes_fallback_and_truncation [1, 2, 3] (-1)).2.2 (by decide)
  have h2 := h.2.1 (by decide)
  have ht2 : ([1, 2, 3] : List Nat).take ((2 : Int).toNat) = [1, 2] := by decide
  have htall : ([1, 2, 3] : List Nat).take (10 ^ 10) = [1, 2, 3] := by decide
  rw [ht2] at h2
  refine ⟨?_, h2, hneg⟩
  rw [h.1, htall]

/-- C2 counterexample: the list [1, 2, 2] with storage {2, 3} has both an
unknown id (1) and a duplicated id (2), but validate_items reports only
the unknown id: the duplicate problem is absent from the failure, so the
caller does not receive the complete set of problems. -/
theorem validate_items_stops_at_first_cex :
    validate_items [1, 2, 2] [2, 3] = .unknown {1} ∧
    reportsDuplicate (validate_items [1, 2, 2] [2, 3]) = false ∧
    ([1, 2, 2] : List Nat).count 2 = 2 := by
  refine ⟨?_, ?_, ?_⟩ <;> decide

/-- C2 (amended): the three checks run sequentially and the first failing
check aborts validation, reporting its own complete problem set: any
unknown id forces the unknown-ids failure listing every unknown id (even
when duplicates are also present), and when all ids exist any duplicated
id forces the duplicate-ids failure listing every duplicated id. -/
theorem validate_items_sequential_reporting (items existing : List Nat)
    (hne : items ≠ []) :
    (∀ x ∈ items, x ∉ existing →
      validate_items items existing = .unknown (missingOf items existing) ∧
        x ∈ missingOf items existing) ∧
    ((∀ x ∈ items, x ∈ existing) → ∀ y ∈ items, 1 < items.count y →
      validate_items items existing = .duplicate (nonUniqueOf items) ∧
        y ∈ nonUniqueOf items) := by
  constructor
  · intro x hx hnx
    have hmem : x ∈ missingOf items existing := by
      simp only [missingOf, Finset.mem_sdiff, List.mem_toFinset]
      exact ⟨hx, hnx⟩
    have hne2 : missingOf items existing ≠ ∅ := by
      intro h
      rw [h] at hmem
      exact absurd hmem (Finset.not_mem_empty x)
    refine ⟨?_, hmem⟩
    simp [validate_items, hne, hne2]
  · intro hall y hy hcount
    have hmem : y ∈ nonUniqueOf items := by
      simp only [nonUniqueOf, List.mem_toFinset, List.mem_filter]
      exact ⟨hy, by simpa using hcount⟩
    have hmiss : missingOf items existing = ∅ := by
      apply Finset.eq_empty_iff_forall_not_mem.mpr
      intro x hx
      simp only [missingOf, Finset.mem_sdiff, List.mem_toFinset] at hx
      exact hx.2 (hall x hx.1)
    have hne2 : nonUniqueOf items ≠ ∅ := by
      intro h
      rw [h] at hmem
      exact absurd hmem (Finset.not_mem_empty y)
    refine ⟨?_, hmem⟩
    simp [validate_items, hne, hmiss, hne2]

/-- C2 witness: concrete applications of the amended theorem — [1, 2, 2]
against storage [2, 3] gives the unknown-ids failure naming 1, and
[2, 2, 3] against the same storage gives the duplicate-ids failure
naming 2. -/
theorem validate_items_sequential_reporting_witness :
    (validate_items [1, 2, 2] [2, 3] = .unknown (missingOf [1, 2, 2] [2, 3]) ∧
      (1 : Nat) ∈ missingOf [1, 2, 2] [2, 3]) ∧
    (validate_items [2, 2, 3] [2, 3] = .duplicate (nonUniqueOf [2, 2, 3]) ∧
      (2 : Nat) ∈ nonUniqueOf [2, 2, 3]) := by
  refine ⟨?_, ?_⟩
  · exact (validate_items_sequential_reporting [1, 2, 2] [2, 3] (by decide)).1
      1 (by decide) (by decide)
  · exact (validate_items_sequential_reporting [2, 2, 3] [2, 3] (by decide)).2
      (by decide) 2 (by decide) (by decide)

/-- C4: the uniform toggle pattern for Favorite/ShoppingCart (one shared
implementation) and Subscription: add on a present pair fails with the
already-exists client error (HTTP 400) leaving the state unchanged, add
on an absent pair creates exactly that pair and returns the entity's
summary; remove on an absent pair fails with the not-found client error
(HTTP 400, not a 5xx server fault), remove on a present pair deletes
exactly the matching rows.  The subscription branch assumes user ≠
author; the self case is covered separately (C8/C10). -/
theorem relation_toggle_pattern (user target : Nat) (pairs : List (Nat × Nat)) :
    ((user, target) ∈ pairs →
      shoppingcart_favorite_method .post user target pairs = (.alreadyInList, pairs) ∧
        toggleStatus .alreadyInList = 400 ∧ 400 < 500) ∧
    ((user, target) ∉ pairs →
      shoppingcart_favorite_method .post user target pairs
        = (.created target, pairs ++ [(user, target)])) ∧
    ((user, target) ∈ pairs →
      shoppingcart_favorite_method .delete user target pairs
        = (.removed, pairs.filter fun p => p ≠ (user, target))) ∧
    ((user, target) ∉ pairs →
      shoppingcart_favorite_method .delete user target pairs = (.notInList, pairs) ∧
        toggleStatus .notInList = 400 ∧ 400 < 500) ∧
    (user ≠ target →
      ((user, target) ∈ pairs →
        subscribe .post user target pairs = (.alreadySubscribed, pairs) ∧
          subscribeStatus .alreadySubscribed = 400 ∧ 400 < 500) ∧
      ((user, target) ∉ pairs →
        subscribe .post user target pairs
          = (.subscribed target, pairs ++ [(user, target)])) ∧
      ((user, target) ∈ pairs →
        subscribe .delete user target pairs
          = (.unsubscribed, pairs.filter fun p => p ≠ (user, target))) ∧
      ((user, target) ∉ pairs →
        subscribe .delete user target pairs = (.notSubscribed, pairs) ∧
          subscribeStatus .notSubscribed = 400 ∧ 400 < 500)) := by
  refine ⟨fun h => ?_, fun h => ?_, fun h => ?_, fun h => ?_, fun hne => ?_⟩
  case refine_1 => simp [shoppingcart_favorite_method, toggleStatus, h]
  case refine_2 => simp [shoppingcart_favorite_method, h]
  case refine_3 => simp [shoppingcart_favorite_method, h]
  case refine_4 => simp [shoppingcart_favorite_method, toggleStatus, h]
  refine ⟨fun h => ?_, fun h => ?_, fun h => ?_, fun h => ?_⟩ <;>
    simp [subscribe, subscribeStatus, h, hne]

/-- C4 witness: a concrete double-add and double-remove on the shared
favorite/cart implementation, and an already-subscribed second subscribe,
all read off the pattern theorem. -/
theorem relation_toggle_pattern_witness :
    shoppingcart_favorite_method .post 1 2 [] = (.created 2, [(1, 2)]) ∧
    shoppingcart_favorite_method .post 1 2 [(1, 2)] = (.alreadyInList, [(1, 2)]) ∧
    shoppingcart_favorite_method .delete 1 2 [(1, 2)] = (.removed, []) ∧
    shoppingcart_favorite_method .delete 1 2 [] = (.notInList, []) ∧
    subscribe .post 1 2 [(1, 2)] = (.alreadySubscribed, [(1, 2)]) := by
  have h0 := relation_toggle_pattern 1 2 []
  have h1 := relation_toggle_pattern 1 2 [(1, 2)]
  have hrem := h1.2.2.1 (by decide)
  have hf : (([(1, 2)] : List (Nat × Nat)).filter fun p => p ≠ (1, 2)) = [] := by decide
  exact ⟨h0.2.1 (by decide), (h1.1 (by decide)).1, by rw [hrem, hf],
    (h0.2.2.2.1 (by decide)).1, ((h1.2.2.2.2 (by decide)).1 (by decide)).1⟩

/-- Every character sitting in the accumulator or occurring disallowed in
the remaining input ends up inside one of the runs that
invalidRunsAux emits. -/
theorem mem_invalidRunsAux (s : List Char) :
    ∀ (acc : List Char) (c : Char),
      (c ∈ acc ∨ (c ∈ s ∧ isAllowedUsernameChar c = false)) →
      ∃ run ∈ invalidRunsAux s acc, c ∈ run := by
  induction s with
  | nil =>
    intro acc c h
    rcases h with hacc | ⟨hmem, _⟩
    · have hne : acc ≠ [] := by
        intro h0
        subst h0
        cases hacc
      refine ⟨acc.reverse, ?_, List.mem_reverse.mpr hacc⟩
      simp [invalidRunsAux, hne]
    · cases hmem
  | cons b rest ih =>
    intro acc c h
    by_cases hb : isAllowedUsernameChar b = true
    · rcases h with hacc | ⟨hmem, hbad⟩
      · have hne : acc ≠ [] := by
          intro h0
          subst h0
          cases hacc
        refine ⟨acc.reverse, ?_, List.mem_reverse.mpr hacc⟩
        simp [invalidRunsAux, hb, hne]
      · rcases List.mem_cons.mp hmem with rfl | hc
        · rw [hb] at hbad
          cases hbad
        · obtain ⟨run, hrun, hcr⟩ := ih [] c (Or.inr ⟨hc, hbad⟩)
          refine ⟨run, ?_, hcr⟩
          simp only [invalidRunsAux, hb, if_true]
          exact List.mem_append_right _ hrun
    · have hbf : isAllowedUsernameChar b = false := by
        cases hq : isAllowedUsernameChar b
        · rfl
        · exact absurd hq hb
      have step : invalidRunsAux (b :: rest) acc = invalidRunsAux rest (b :: acc) := by
        simp [invalidRunsAux, hbf]
      rcases h with hacc | ⟨hmem, hbad⟩
      · obtain ⟨run, hrun, hcr⟩ := ih (b :: acc) c (Or.inl (List.mem_cons_of_mem _ hacc))
        exact ⟨run, step ▸ hrun, hcr⟩
      · rcases List.mem_cons.mp hmem with rfl | hc
        · obtain ⟨run, hrun, hcr⟩ := ih (c :: acc) c (Or.inl (List.mem_cons_self _ _))
          exact ⟨run, step ▸ hrun, hcr⟩
        · obtain ⟨run, hrun, hcr⟩ := ih (b :: acc) c (Or.inr ⟨hc, hbad⟩)
          exact ⟨run, step ▸ hrun, hcr⟩

/-- C3: a username containing any character outside the allowed set fails
character validation, and the reported data (the set of matched runs put
into the error message) covers every individual offending character of
the username, not only the first. -/
theorem validate_username_characters_reports_all (s : List Char)
    (hbad : ∃ c ∈ s, isAllowedUsernameChar c = false) :
    ∃ rep, validate_username_characters s = some rep ∧
      ∀ c ∈ s, isAllowedUsernameChar c = false → ∃ run ∈ rep, c ∈ run := by
  obtain ⟨c0, hc0, hb0⟩ := hbad
  obtain ⟨run0, hrun0, _⟩ := mem_invalidRunsAux s [] c0 (Or.inr ⟨hc0, hb0⟩)
  have hne : invalidRuns s ≠ [] := by
    intro h
    have hmem : run0 ∈ invalidRuns s := hrun0
    rw [h] at hmem
    cases hmem
  refine ⟨(invalidRuns s).toFinset, ?_, ?_⟩
  · simp [validate_username_characters, hne]
  · intro c hc hbadc
    obtain ⟨run, hrun, hcr⟩ := mem_invalidRunsAux s [] c (Or.inr ⟨hc, hbadc⟩)
    exact ⟨run, List.mem_toFinset.mpr hrun, hcr⟩

/-- C3 witness: the username "ab!?c#" has the offending characters
!, ? and #; validation fails and each of them occurs in a reported run. -/
theorem validate_username_characters_reports_all_witness :
    (∃ c ∈ ['a', 'b', '!', '?', 'c', '#'], isAllowedUsernameChar c = false) ∧
    ∃ rep, validate_username_characters ['a', 'b', '!', '?', 'c', '#'] = some rep ∧
      ∀ c ∈ ['a', 'b', '!', '?', 'c', '#'], isAllowedUsernameChar c = false →
        ∃ run ∈ rep, c ∈ run :=
  ⟨by decide, validate_username_characters_reports_all _ (by decide)⟩

/-- filter distributes over flatMap. -/
theorem filter_flatMap_comm {α β : Type} (l : List α) (f : α → List β) (p : β → Bool) :
    (l.flatMap f).filter p = l.flatMap fun a => (f a).filter p := by
  induction l with
  | nil => rfl
  | cons a t ih => simp [List.flatMap_cons, ih]

/-- flatMap of a conditional body collapses to a flatMap over the
filtered list. -/
theorem flatMap_ite_eq_filter_flatMap {α β : Type} (l : List α) (q : α → Prop)
    [DecidablePred q] (f : α → List β) :
    (l.flatMap fun a => if q a then f a else [])
      = (l.filter fun a => q a).flatMap f := by
  induction l with
  | nil => rfl
  | cons a t ih =>
    by_cases hq : q a
    · simp [List.flatMap_cons, List.filter_cons, hq, ih]
    · simp [List.flatMap_cons, List.filter_cons, hq, ih]

/-- In a list in which no two distinct positions both satisfy p, filtering
by p when a known member satisfies p returns exactly that member. -/
theorem filter_eq_singleton_of_pairwise {α : Type} {l : List α} {p : α → Bool}
    (hl : l.Pairwise fun x y => ¬(p x = true ∧ p y = true)) {a : α}
    (ha : a ∈ l) (hpa : p a = true) : l.filter p = [a] := by
  induction l with
  | nil => cases ha
  | cons b t ih =>
    rcases List.pairwise_cons.mp hl with ⟨hb, ht⟩
    cases hq : p b
    case false =>
      have hat : a ∈ t := by
        rcases List.mem_cons.mp ha with rfl | h
        · rw [hpa] at hq
          cases hq
        · exact h
      rw [List.filter_cons_of_neg (by simp [hq])]
      exact ih ht hat
    case true =>
      have htnil : t.filter p = [] :=
        List.filter_eq_nil_iff.mpr fun y hy hpy => hb y hy ⟨hq, hpy⟩
      rcases List.mem_cons.mp ha with rfl | h
      · rw [List.filter_cons_of_pos hq, htnil]
      · exact absurd ⟨hq, hpa⟩ (hb a h)

/-- Sum of a function over a flatMap, regrouped per generator. -/
theorem sum_map_flatMap {α β : Type} (l : List α) (f : α → List β) (g : β → Nat) :
    ((l.flatMap f).map g).sum = (l.map fun a => ((f a).map g).sum).sum := by
  induction l with
  | nil => rfl
  | cons a t ih => simp [List.flatMap_cons, ih]

/-- Sum of a constant over a list. -/
theorem sum_map_const {α : Type} (l : List α) (n : Nat) :
    (l.map fun _ => n).sum = l.length * n := by
  induction l with
  | nil => simp
  | cons a t ih => simp [ih, Nat.succ_mul, Nat.add_comm]

/-- A conditional summand is a sum over the filtered list. -/
theorem sum_map_ite {α : Type} (l : List α) (q : α → Bool) (g : α → Nat) :
    (l.map fun a => if q a then g a else 0).sum = ((l.filter q).map g).sum := by
  induction l with
  | nil => rfl
  | cons a t ih => cases hq : q a <;> simp [List.filter_cons, hq, ih]

/-- Under the (user, recipe) uniqueness constraint of ShoppingCart, the
rows matching one (user, recipe) pair number one or zero according to
cartHit. -/
theorem cart_filter_length (db : DB) (u r : Nat)
    (hcarts : db.shoppingCarts.Pairwise fun a b =>
      (a.user, a.recipe) ≠ (b.user, b.recipe)) :
    (db.shoppingCarts.filter fun c => c.user = u ∧ c.recipe = r).length
      = if cartHit db u r then 1 else 0 := by
  cases hh : cartHit db u r
  case false =>
    have hnil : (db.shoppingCarts.filter fun c => c.user = u ∧ c.recipe = r) = [] := by
      apply List.filter_eq_nil_iff.mpr
      intro c hcm hp
      have hfalse := List.any_eq_false.mp hh c hcm
      exact hfalse hp
    rw [hnil]
    rfl
  case true =>
    obtain ⟨c, hcm, hpc⟩ := List.any_eq_true.mp hh
    have hpair : db.shoppingCarts.Pairwise fun x y =>
        ¬((decide (x.user = u ∧ x.recipe = r)) = true ∧
          (decide (y.user = u ∧ y.recipe = r)) = true) := by
      refine hcarts.imp ?_
      intro x y hxy hand
      rcases hand with ⟨hx, hy⟩
      rw [decide_eq_true_eq] at hx hy
      exact hxy (by rw [hx.1, hx.2, hy.1, hy.2])
    rw [filter_eq_singleton_of_pairwise hpair hcm hpc]
    rfl

/-- Every element of an ingredient's join group carries that ingredient's
(name, measurement_unit) as its group key. -/
theorem joinGroup_filter_key (db : DB) (u : Nat) (i : Ingredient) (k : String × String) :
    ((joinGroup db u i).filter fun r => rowKey r = k)
      = if (i.name, i.measurement_unit) = k then joinGroup db u i else [] := by
  by_cases hk : (i.name, i.measurement_unit) = k
  · rw [if_pos hk]
    apply List.filter_eq_self.mpr
    intro r hr
    obtain ⟨ri, _, hmap⟩ := List.mem_flatMap.mp hr
    obtain ⟨c, _, rfl⟩ := List.mem_map.mp hmap
    simpa [rowKey] using hk
  · rw [if_neg hk]
    apply List.filter_eq_nil_iff.mpr
    intro r hr hp
    obtain ⟨ri, _, hmap⟩ := List.mem_flatMap.mp hr
    obtain ⟨c, _, rfl⟩ := List.mem_map.mp hmap
    rw [decide_eq_true_eq] at hp
    exact hk (by simpa [rowKey] using hp)

/-- C1: the shopping-list aggregation joins RecipeIngredient, Recipe and
ShoppingCart restricted to the user, groups by ingredient and sums the
amounts: under the storage uniqueness constraints (ingredient
(name, measurement_unit) unique, cart (user, recipe) unique), every
ingredient appearing in any recipe of the user's cart yields exactly one
output line, and its total is the sum of that ingredient's amounts across
all cart recipes. -/
theorem download_shopping_cart_aggregates (db : DB) (u : Nat) (i : Ingredient)
    (hkeys : db.ingredients.Pairwise fun a b =>
      (a.name, a.measurement_unit) ≠ (b.name, b.measurement_unit))
    (hcarts : db.shoppingCarts.Pairwise fun a b =>
      (a.user, a.recipe) ≠ (b.user, b.recipe))
    (hi : i ∈ db.ingredients)
    (hex : ∃ ri ∈ db.recipeIngredients, ri.ingredient = i.id ∧
        ∃ c ∈ db.shoppingCarts, c.user = u ∧ c.recipe = ri.recipe) :
    (download_shopping_cart db u).filter
        (fun line => line.1 = i.name ∧ line.2.1 = i.measurement_unit)
      = [(i.name, i.measurement_unit, ingredientCartTotal db u i)] := by
  have hising : (db.ingredients.filter fun a =>
      (a.name, a.measurement_unit) = (i.name, i.measurement_unit)) = [i] := by
    apply filter_eq_singleton_of_pairwise ?_ hi (by simp)
    refine hkeys.imp ?_
    intro a b hab hand
    rcases hand with ⟨ha2, hb2⟩
    rw [decide_eq_true_eq] at ha2 hb2
    exact hab (ha2.trans hb2.symm)
  have hrows : ((cartJoinRows db u).filter fun r =>
      rowKey r = (i.name, i.measurement_unit)) = joinGroup db u i := by
    rw [cartJoinRows, filter_flatMap_comm]
    simp only [joinGroup_filter_key]
    rw [flatMap_ite_eq_filter_flatMap, hising, List.flatMap_singleton]
  have htot : groupTotal db u (i.name, i.measurement_unit)
      = ingredientCartTotal db u i := by
    rw [groupTotal, hrows, joinGroup, sum_map_flatMap]
    have hinner : ∀ ri : RecipeIngredient,
        (((db.shoppingCarts.filter fun c =>
            c.user = u ∧ c.recipe = ri.recipe).map fun c => (i, ri, c)).map
          fun r => r.2.1.amount).sum
          = if cartHit db u ri.recipe then ri.amount else 0 := by
      intro ri
      rw [List.map_map]
      have hconst : ((fun r : Ingredient × RecipeIngredient × CartEntry =>
          r.2.1.amount) ∘ fun c => (i, ri, c)) = fun _ => ri.amount := rfl
      rw [hconst, sum_map_const, cart_filter_length db u ri.recipe hcarts]
      cases cartHit db u ri.recipe <;> simp
    simp only [hinner]
    rw [sum_map_ite, List.filter_filter, ingredientCartTotal]
    have hfilters : (db.recipeIngredients.filter fun a =>
        cartHit db u a.recipe && decide (a.ingredient = i.id))
      = db.recipeIngredients.filter fun ri =>
          ri.ingredient = i.id ∧ cartHit db u ri.recipe := by
      apply List.filter_congr
      intro ri _
      cases hc2 : cartHit db u ri.recipe <;>
        by_cases hi2 : ri.ingredient = i.id <;> simp [hc2, hi2]
    rw [hfilters]
  have hkmem : (i.name, i.measurement_unit) ∈ aggKeys db u := by
    obtain ⟨ri, hri, hing, c, hc, hcu, hcr⟩ := hex
    apply List.mem_dedup.mpr
    apply List.mem_map.mpr
    refine ⟨(i, ri, c), ?_, rfl⟩
    apply List.mem_flatMap.mpr
    refine ⟨i, hi, ?_⟩
    rw [joinGroup]
    apply List.mem_flatMap.mpr
    refine ⟨ri, List.mem_filter.mpr ⟨hri, by simp [hing]⟩, ?_⟩
    apply List.mem_map.mpr
    exact ⟨c, List.mem_filter.mpr ⟨hc, by simp [hcu, hcr]⟩, rfl⟩
  have hkeysfilter : ((aggKeys db u).filter fun q =>
      q = (i.name, i.measurement_unit)) = [(i.name, i.measurement_unit)] := by
    apply filter_eq_singleton_of_pairwise ?_ hkmem (by simp)
    refine (List.nodup_dedup _).imp ?_
    intro a b hab hand
    rcases hand with ⟨ha2, hb2⟩
    rw [decide_eq_true_eq] at ha2 hb2
    exact hab (ha2.trans hb2.symm)
  rw [download_shopping_cart, List.filter_map]
  have hpred : ((fun line : String × String × Nat =>
      decide (line.1 = i.name ∧ line.2.1 = i.measurement_unit)) ∘
        fun q => (q.1, q.2, groupTotal db u q)) =
      fun q : String × String => decide (q = (i.name, i.measurement_unit)) := by
    funext q
    rw [Function.comp_apply, decide_eq_decide, Prod.ext_iff]
  rw [hpred, hkeysfilter, List.map_singleton, htot]

/-- C1 witness: user 7's cart holds recipes 1 and 2; recipe 1 uses 2 g of
Salt and recipe 2 uses 3 g of Salt.  The aggregation yields exactly one
Salt line totaling 5 g. -/
theorem download_shopping_cart_aggregates_witness :
    (download_shopping_cart
        ⟨[⟨1, "Salt", "g"⟩], [⟨1, 1, 2⟩, ⟨2, 1, 3⟩], [⟨7, 1⟩, ⟨7, 2⟩]⟩ 7).filter
        (fun line => line.1 = "Salt" ∧ line.2.1 = "g")
      = [("Salt", "g", 5)] := by
  have ht : ingredientCartTotal
      ⟨[⟨1, "Salt", "g"⟩], [⟨1, 1, 2⟩, ⟨2, 1, 3⟩], [⟨7, 1⟩, ⟨7, 2⟩]⟩ 7
      ⟨1, "Salt", "g"⟩ = 5 := by decide
  have h := download_shopping_cart_aggregates
      ⟨[⟨1, "Salt", "g"⟩], [⟨1, 1, 2⟩, ⟨2, 1, 3⟩], [⟨7, 1⟩, ⟨7, 2⟩]⟩ 7
      ⟨1, "Salt", "g"⟩ (by decide) (by decide) (by decide) (by decide)
  rw [ht] at h
  exact h

end Foodgram
